import Mathlib

/-!
Verification development for the deephaven theming spike.

The JavaScript source in src/util.js (and the earlier variants in
src/iframe.js and the unnamed module) is shallowly embedded here.  Strings
are modelled as lists of characters; JavaScript numbers as exact rational
arithmetic over unnormalized integer fractions (so that every definition
evaluates by kernel reduction), with NaN and the infinities made explicit
where the code can produce them; and the DOM reads performed through
getComputedStyle are modelled as explicit environment functions from
property names to resolved value strings.
-/

set_option maxHeartbeats 1000000

namespace ThemingSpike

/-- Strings of the JavaScript source are modelled as lists of characters. -/
def S (s : String) : List Char := s.toList

/-- An exact rational value num / den with den positive at every value the
embedded program constructs.  Fractions are left unnormalized so that all
arithmetic is plain integer arithmetic. -/
structure Frac where
  num : ℤ
  den : ℕ
deriving DecidableEq

namespace Frac

def ofNat (n : ℕ) : Frac := ⟨n, 1⟩

def ofInt (i : ℤ) : Frac := ⟨i, 1⟩

instance : OfNat Frac n := ⟨⟨n, 1⟩⟩

instance : Add Frac := ⟨fun x y => ⟨x.num * y.den + y.num * x.den, x.den * y.den⟩⟩

instance : Sub Frac := ⟨fun x y => ⟨x.num * y.den - y.num * x.den, x.den * y.den⟩⟩

instance : Mul Frac := ⟨fun x y => ⟨x.num * y.num, x.den * y.den⟩⟩

instance : Div Frac :=
  ⟨fun x y =>
    if 0 ≤ y.num then ⟨x.num * y.den, x.den * y.num.toNat⟩
    else ⟨-(x.num * y.den), x.den * (-y.num).toNat⟩⟩

instance : LE Frac := ⟨fun x y => x.num * (y.den : ℤ) ≤ y.num * (x.den : ℤ)⟩

instance : LT Frac := ⟨fun x y => x.num * (y.den : ℤ) < y.num * (x.den : ℤ)⟩

instance (x y : Frac) : Decidable (x ≤ y) :=
  inferInstanceAs (Decidable (x.num * (y.den : ℤ) ≤ y.num * (x.den : ℤ)))

instance (x y : Frac) : Decidable (x < y) :=
  inferInstanceAs (Decidable (x.num * (y.den : ℤ) < y.num * (x.den : ℤ)))

/-- Value equality of two fractions: the JavaScript strict equality on the
numbers they denote (denominators are positive at every use). -/
def eqv (x y : Frac) : Prop := x.num * (y.den : ℤ) = y.num * (x.den : ℤ)

instance (x y : Frac) : Decidable (x.eqv y) :=
  inferInstanceAs (Decidable (x.num * (y.den : ℤ) = y.num * (x.den : ℤ)))

/-- Whether the denoted value is zero. -/
def isZero (x : Frac) : Prop := x.num = 0

instance (x : Frac) : Decidable x.isZero := inferInstanceAs (Decidable (x.num = 0))

/-- Math.min of two numbers. -/
def jmin (x y : Frac) : Frac := if x ≤ y then x else y

/-- Math.max of two numbers. -/
def jmax (x y : Frac) : Frac := if y ≤ x then x else y

end Frac

/-- Math.round: the floor of x + 1/2, rounding half toward positive
infinity as JavaScript does. -/
def jsRound (x : Frac) : ℤ := Int.fdiv (2 * x.num + x.den) (2 * x.den)

/-- Value of a decimal digit character. -/
def digitVal (c : Char) : ℕ := c.toNat - '0'.toNat

/-- Numeric value of a case-insensitive hexadecimal digit character. -/
def hexVal? (c : Char) : Option ℕ :=
  if c.isDigit then some (digitVal c)
  else if 'a' ≤ c ∧ c ≤ 'f' then some (c.toNat - 'a'.toNat + 10)
  else if 'A' ≤ c ∧ c ≤ 'F' then some (c.toNat - 'A'.toNat + 10)
  else none

/-- Longest leading run of hexadecimal digit values of a string. -/
def hexValList : List Char → List ℕ
  | [] => []
  | c :: t =>
    match hexVal? c with
    | none => []
    | some v => v :: hexValList t

/-- Model of the JavaScript parseInt(s, 16) on the substrings arising in
hexToRgb: the longest leading run of hex digits is parsed and an empty run
gives NaN, modelled as none.  Signs and leading whitespace never occur at
these call sites and are not modelled. -/
def jsParseIntHex (l : List Char) : Option ℕ :=
  match hexValList l with
  | [] => none
  | ds => some (ds.foldl (fun a d => 16 * a + d) 0)

/-- Decimal rendering of a natural number, as JavaScript string
interpolation prints the nonnegative integers this program produces. -/
def natToDec (n : ℕ) : List Char := Nat.toDigits 10 n

/-- Decimal rendering of an integer. -/
def intDec (i : ℤ) : List Char :=
  if i < 0 then '-' :: natToDec i.natAbs else natToDec i.toNat

/-- Numeric value of a string of decimal digits. -/
def decVal (ds : List Char) : ℕ := ds.foldl (fun a c => 10 * a + digitVal c) 0

/-- Rendering of an optional natural number where none stands for NaN. -/
def optDec : Option ℕ → List Char
  | none => S "NaN"
  | some n => natToDec n

/-- Doubling of every ASCII alphanumeric character: the replace call that
expands a 3 digit hex color to 6 digits in hexToRgb. -/
def expandHex3 (l : List Char) : List Char :=
  l.flatMap (fun c => if c.isAlphanum then [c, c] else [c])

/-- Model of hexToRgb from src/util.js. -/
def hexToRgb (l : List Char) : List Char :=
  if l.head? ≠ some '#' then l
  else
    let l' := if l.length = 4 then expandHex3 l else l
    let r := jsParseIntHex ((l'.drop 1).take 2)
    let g := jsParseIntHex ((l'.drop 3).take 2)
    let b := jsParseIntHex ((l'.drop 5).take 2)
    S "rgb(" ++ optDec r ++ S " " ++ optDec g ++ S " " ++ optDec b ++ S ")"

/-- A JavaScript number that may be NaN or an infinity. -/
inductive JsNum where
  | num : Frac → JsNum
  | nan : JsNum
  | posInf : JsNum
  | negInf : JsNum
deriving DecidableEq

/-- JavaScript division including the zero-denominator special values. -/
def jsDivN (a b : Frac) : JsNum :=
  if b.isZero then
    (if a.isZero then JsNum.nan else if a.num > 0 then JsNum.posInf else JsNum.negInf)
  else JsNum.num (a / b)

/-- Rendering of the JavaScript number n / 10 for an integer n, the shape
produced by Math.round(x * 1000) / 10. -/
def tenthsNat (n : ℕ) : List Char :=
  if n % 10 = 0 then natToDec (n / 10)
  else natToDec (n / 10) ++ ['.', Nat.digitChar (n % 10)]

/-- Signed variant of the tenths rendering. -/
def tenthsStr (k : ℤ) : List Char :=
  if k < 0 then '-' :: tenthsNat k.natAbs else tenthsNat k.toNat

/-- Rendering of Math.round(x * 1000) / 10 for a saturation or lightness
value x, following the JavaScript special values through rounding, scaling
and string conversion. -/
def pctDisplay : JsNum → List Char
  | JsNum.num q => tenthsStr (jsRound (q * 1000))
  | JsNum.nan => S "NaN"
  | JsNum.posInf => S "Infinity"
  | JsNum.negInf => S "-Infinity"

/-- Parse of the anchored regex in rgbToHsl: the literal rgb( followed by
three runs of one to three decimal digits separated by single spaces and a
closing parenthesis at the end of the string. -/
def parseRgbTriple (l : List Char) : Option (ℕ × ℕ × ℕ) :=
  if l.take 4 ≠ S "rgb(" then none
  else
    let p1 := ((l.drop 4).takeWhile Char.isDigit, (l.drop 4).dropWhile Char.isDigit)
    if ¬(1 ≤ p1.1.length ∧ p1.1.length ≤ 3) then none
    else
      match p1.2 with
      | ' ' :: rest2 =>
        let p2 := (rest2.takeWhile Char.isDigit, rest2.dropWhile Char.isDigit)
        if ¬(1 ≤ p2.1.length ∧ p2.1.length ≤ 3) then none
        else
          match p2.2 with
          | ' ' :: rest3 =>
            let p3 := (rest3.takeWhile Char.isDigit, rest3.dropWhile Char.isDigit)
            if ¬(1 ≤ p3.1.length ∧ p3.1.length ≤ 3) then none
            else
              match p3.2 with
              | [')'] => some (decVal p1.1, decVal p2.1, decVal p3.1)
              | _ => none
          | _ => none
      | _ => none

/-- Model of rgbToHsl from src/util.js, the refined variant that rounds
saturation and lightness to tenths of a percent.  The double-precision
arithmetic of JavaScript is idealised to exact rational arithmetic; at
every input reasoned about below the two agree. -/
def rgbToHsl (input : List Char) : List Char :=
  match parseRgbTriple input with
  | none => input
  | some (r0, g0, b0) =>
    let r : Frac := Frac.ofNat r0 / 255
    let g : Frac := Frac.ofNat g0 / 255
    let b : Frac := Frac.ofNat b0 / 255
    let mn : Frac := Frac.jmin r (Frac.jmin g b)
    let mx : Frac := Frac.jmax r (Frac.jmax g b)
    let lum : Frac := (mn + mx) / 2
    let sat : JsNum :=
      if lum ≤ (1 : Frac) / 2 then jsDivN (mx - mn) (mx + mn)
      else jsDivN (mx - mn) (2 - mx - mn)
    let h0 : Frac :=
      if mx.eqv mn then 0
      else if mx.eqv r then 60 * ((g - b) / (mx - mn))
      else if mx.eqv g then 60 * ((b - r) / (mx - mn)) + 120
      else 60 * ((r - g) / (mx - mn)) + 240
    let h1 : Frac := if h0 < 0 then h0 + 360 else h0
    S "hsl(" ++ intDec (jsRound h1) ++ S "deg " ++ pctDisplay sat ++ S "% " ++
      pctDisplay (JsNum.num lum) ++ S "%)"

/-- Delimiters of the token split in parseRgba. -/
def isDelim (c : Char) : Bool := c == ' ' || c == ',' || c == '/'

/-- Split on space, comma and slash: the split call in parseRgba. -/
def splitRaw : List Char → List (List Char)
  | [] => [[]]
  | c :: t =>
    if isDelim c then [] :: splitRaw t
    else
      match splitRaw t with
      | [] => [[c]]
      | u :: rest => (c :: u) :: rest

/-- Model of the JavaScript Number conversion on the nonempty token strings
arising from css color values: decimal digits with an optional fraction
part.  Other shapes give NaN; signs, exponents, hex literals and the word
Infinity do not occur at these call sites and are also sent to NaN. -/
def jsNumber (l : List Char) : Option Frac :=
  match l.takeWhile Char.isDigit, l.dropWhile Char.isDigit with
  | ds, [] => if ds = [] then none else some (Frac.ofNat (decVal ds))
  | ds, '.' :: fs =>
    if fs.all Char.isDigit ∧ (ds ≠ [] ∨ fs ≠ []) then
      some (Frac.ofNat (decVal ds) + Frac.mk (decVal fs) (10 ^ fs.length))
    else none
  | _, _ => none

/-- The r, g, b, a components produced by parseRgba; none stands for NaN. -/
structure Rgba where
  r : Option Frac
  g : Option Frac
  b : Option Frac
  a : Option Frac
deriving DecidableEq

/-- Model of parseRgba from src/util.js: the anchored rgb/rgba regex whose
lazy middle group spans everything between the first opening parenthesis
and the final closing one, then token split and Number conversion with the
alpha component defaulting to 1. -/
def parseRgba (l : List Char) : Option Rgba :=
  let inner? : Option (List Char) :=
    if l.take 5 = S "rgba(" ∧ l.getLast? = some ')' ∧ 6 ≤ l.length then
      some ((l.drop 5).dropLast)
    else if l.take 4 = S "rgb(" ∧ l.getLast? = some ')' ∧ 5 ≤ l.length then
      some ((l.drop 4).dropLast)
    else none
  match inner? with
  | none => none
  | some args =>
    let tokens := (splitRaw args).filter (fun t => t ≠ [])
    if tokens.length < 3 then none
    else
      match tokens.map jsNumber with
      | rv :: gv :: bv :: rest => some ⟨rv, gv, bv, rest.headD (some 1)⟩
      | _ => none

/-- Model of Number.prototype.toString(16) for the values reaching it in
rgbaToHex8: NaN and integer-valued numbers.  A non-integral value, which
JavaScript would print with hexadecimal fraction digits and which no call
site produces from integral channels, is rendered by its floor. -/
def jsToHexStr : Option Frac → List Char
  | none => S "NaN"
  | some q =>
    if q.num < 0 then '-' :: Nat.toDigits 16 (Int.fdiv (-q.num) q.den).toNat
    else Nat.toDigits 16 (Int.fdiv q.num q.den).toNat

/-- JavaScript padStart(2, "0"). -/
def padStart2 (l : List Char) : List Char :=
  if l.length < 2 then List.replicate (2 - l.length) '0' ++ l else l

/-- Model of rgbaToHex8 from src/util.js. -/
def rgbaToHex8 (x : Rgba) : List Char :=
  let a := x.a.map (fun q => Frac.ofInt (jsRound (q * 255)))
  '#' :: (padStart2 (jsToHexStr x.r) ++ padStart2 (jsToHexStr x.g) ++
    padStart2 (jsToHexStr x.b) ++ padStart2 (jsToHexStr a))

/-- Suffix test on character lists: String.prototype.endsWith and the
end-anchored regex tests of the source. -/
def endsWithL (l suf : List Char) : Bool := l.reverse.take suf.length == suf.reverse

/-- Model of extractColorName from src/util.js: the lazy group between the
--dh-color- marker and the next dash. -/
def extractColorName (p : List Char) : Option (List Char) :=
  if p.take 11 = S "--dh-color-" ∧ '-' ∈ p.drop 11 then
    some ((p.drop 11).takeWhile (fun c => c ≠ '-'))
  else none

/-- Scan for the lazy group of the colorPropRegex in generateHSLRanges: the
shortest run of characters followed by a dash and a decimal digit. -/
def colorNameScan : List Char → Option (List Char)
  | [] => none
  | c :: t =>
    if c = '-' ∧ ((t.head?.map Char.isDigit).getD false) = true then some []
    else (colorNameScan t).map (fun m => c :: m)

/-- Family key of a custom property for the HSL range generator. -/
def colorNameOfProp (p : List Char) : Option (List Char) :=
  if p.take 11 = S "--dh-color-" then colorNameScan (p.drop 11) else none

/-- Replacement of a trailing -hsl: the replace call in buildSwatches. -/
def stripHslSuffix (p : List Char) : List Char :=
  if endsWithL p (S "-hsl") then p.take (p.length - 4) else p

/-- Model of the trailing shade-weight regex: a dash followed by the
trailing run of decimal digits. -/
def lastNumSuffix (p : List Char) : Option (List Char) :=
  let ds := p.reverse.takeWhile Char.isDigit
  if ds = [] then none
  else if (p.reverse.drop ds.length).head? = some '-' then some ds.reverse else none

/-- Observable state of one swatch element produced by buildSwatches. -/
structure Swatch where
  className : List Char
  innerHTML : List Char
  marginTop : Option (List Char)
  background : Option (List Char)
  textColor : Option (List Char)
  title : Option (List Char)
deriving DecidableEq

def gray75v : List Char := S "var(--dh-color-gray-75)"

def gray800v : List Char := S "var(--dh-color-gray-800)"

/-- Label markup built for one swatch in src/util.js buildSwatches.  The
env function models getComputedStyle().getPropertyValue on the custom
property names. -/
def swatchLabel (env : List Char → List Char) (p : List Char) : List Char :=
  let colorValue := env p
  let hslColorValue := rgbToHsl (hexToRgb (env p))
  let isLabel := endsWithL p (S "-label")
  p ++ S ": " ++
    (if colorValue = hslColorValue ∧ isLabel = false then colorValue
     else colorValue ++ S " <span title=\"HSL based on original HEX color\">" ++
       (if isLabel then S "HSL derived from hex" else hslColorValue) ++ S "</span>")

/-- The -hue test applied to the previous property; JavaScript coerces the
initial null to the string null, which does not end in -hue. -/
def optEndsHue : Option (List Char) → Bool
  | none => false
  | some q => endsWithL q (S "-hue")

/-- extractColorName applied to the previous property; on the initial null
the coerced string null does not carry the marker, giving undefined. -/
def optColorName : Option (List Char) → Option (List Char)
  | none => none
  | some q => extractColorName q

/-- One iteration of the forEach in src/util.js buildSwatches: the list of
swatches appended for one property (empty for a skipped one) and the
updated previous-property reference.  bgEnv models the computed
background-color read back after setting the variable reference; when
parseRgba fails on it JavaScript would throw destructuring null, which is
modelled as an absent title. -/
def emit (env bgEnv : List Char → List Char) (prev : Option (List Char)) (i : ℕ)
    (p : List Char) : List Swatch × Option (List Char) :=
  if endsWithL p (S "-hsl") then ([], prev)
  else
    let mt : Option (List Char) :=
      if 0 < i ∧ extractColorName p ≠ optColorName prev ∧ optEndsHue prev = false then
        some (S "40px")
      else none
    if endsWithL p (S "-hue") then
      ([{ className := S "swatch", innerHTML := swatchLabel env p, marginTop := mt,
          background := none, textColor := none, title := none }], some p)
    else
      let bg := S "var(" ++ stripHslSuffix p ++ S ")"
      let fg := match lastNumSuffix p with
        | none => gray800v
        | some w => if decVal w < 700 then gray800v else gray75v
      let hex8? := (parseRgba (bgEnv bg)).map rgbaToHex8
      ([{ className := S "swatch", innerHTML := swatchLabel env p, marginTop := mt,
          background := some bg, textColor := some fg,
          title := hex8?.map (fun h => h.take 7) }], some p)

/-- Model of buildSwatches from src/util.js: the container contents after
the run, threading the appended swatches and the previous-property
reference through the indexed loop. -/
def buildSwatches (env bgEnv : List Char → List Char) (container : List Swatch)
    (names : List (List Char)) : List Swatch :=
  (names.enum.foldl
    (fun st ip =>
      ((st.1 ++ (emit env bgEnv st.2 ip.1 ip.2).1, (emit env bgEnv st.2 ip.1 ip.2).2) :
        List Swatch × Option (List Char)))
    (container, none)).1

/-- Foreground selection of the swatch loop in src/iframe.js and the
unnamed earlier util variant: a missing weight defaults to the light text
there. -/
def fgLegacy (p : List Char) : List Char :=
  match lastNumSuffix p with
  | none => gray75v
  | some w => if 700 ≤ decVal w then gray75v else gray800v

/-- Parse of a regex group of decimal digits with an optional fraction. -/
def numTok (l : List Char) : Option (List Char × List Char) :=
  let p := (l.takeWhile Char.isDigit, l.dropWhile Char.isDigit)
  if p.1 = [] then none
  else
    match p.2 with
    | '.' :: t =>
      let q := (t.takeWhile Char.isDigit, t.dropWhile Char.isDigit)
      if q.1 = [] then some (p.1, p.2) else some (p.1 ++ '.' :: q.1, q.2)
    | _ => some (p.1, p.2)

/-- Model of the extractHsl regex of generateHSLRanges: the hue digits are
returned as their numeric value (as Number reads them), saturation and
lightness as the raw matched strings. -/
def extractHsl (l : List Char) : Option (ℕ × List Char × List Char) :=
  if l.take 4 = S "hsl(" then
    let p := ((l.drop 4).takeWhile Char.isDigit, (l.drop 4).dropWhile Char.isDigit)
    if p.1 ≠ [] ∧ p.2.take 4 = S "deg " then
      match numTok (p.2.drop 4) with
      | none => none
      | some (sTok, rest2) =>
        if rest2.take 2 = S "% " then
          match numTok (rest2.drop 2) with
          | none => none
          | some (lTok, rest3) =>
            if rest3 = S "%)" then some (decVal p.1, sTok, lTok) else none
        else none
      else none
  else none

def grayxL : List Char := S "grayx"

/-- Hue of a member value after the hex to rgb to hsl conversion chain. -/
def hueOfValue (v : List Char) : Option ℕ :=
  (extractHsl (rgbToHsl (hexToRgb v))).map (fun x => x.1)

/-- Saturation token of a member value as re-extracted in the generator; a
failed match interpolates the JavaScript undefined. -/
def satStrOf (v : List Char) : List Char :=
  ((extractHsl (rgbToHsl (hexToRgb v))).map (fun x => x.2.1)).getD (S "undefined")

/-- Lightness token of a member value as re-extracted in the generator. -/
def lightStrOf (v : List Char) : List Char :=
  ((extractHsl (rgbToHsl (hexToRgb v))).map (fun x => x.2.2)).getD (S "undefined")

/-- The reduce over member hues in generateHSLRanges: any member whose hsl
form the regex does not match poisons the total to NaN. -/
def jsSumHues (hs : List (Option ℕ)) : Option Frac :=
  hs.foldl
    (fun acc h =>
      match acc, h with
      | some a, some x => some (a + Frac.ofNat x)
      | _, _ => none)
    (some 0)

/-- Family average hue of generateHSLRanges: the grayx family is pinned to
0, any other family gets the rounded mean of its member hues, NaN (from an
unparsable member or an empty family) modelled as none. -/
def familyHueAvg (colorName : List Char) (vals : List (List Char)) : Option ℤ :=
  if colorName = grayxL then some 0
  else if vals.length = 0 then none
  else (jsSumHues (vals.map hueOfValue)).map (fun total =>
    jsRound (total / Frac.ofNat vals.length))

/-- The offset-free hsl value emitted when the hue delta is exactly zero. -/
def plainShade (colorName sTok lTok : List Char) : List Char :=
  S "var(--dh-color-" ++ colorName ++ S "-hue), " ++ sTok ++ S "%, " ++ lTok ++ S "%"

/-- The calc-based hsl value emitted for a nonzero (or NaN) hue delta. -/
def calcShade (colorName : List Char) (sign : Char) (mag sTok lTok : List Char) :
    List Char :=
  S "calc(var(--dh-color-" ++ colorName ++ S "-hue) " ++ [sign] ++ S " " ++ mag ++
    S "deg), " ++ sTok ++ S "%, " ++ lTok ++ S "%"

/-- The per-shade hsl declaration value of generateHSLRanges: offset zero
omits the calc term, otherwise the sign and absolute delta are rendered,
with NaN offsets (grayx aside, from an unparsable shade or average)
rendered as a minus NaN delta exactly as the JavaScript template does. -/
def shadeVal (colorName : List Char) (avg : Option ℤ) (hsl : List Char) : List Char :=
  let ex := extractHsl hsl
  let hOpt : Option ℕ := ex.map (fun x => x.1)
  let sTok : List Char := (ex.map (fun x => x.2.1)).getD (S "undefined")
  let lTok : List Char := (ex.map (fun x => x.2.2)).getD (S "undefined")
  let offset : Option ℤ :=
    if colorName = grayxL then some 0
    else
      match hOpt, avg with
      | some h, some a => some ((h : ℤ) - a)
      | _, _ => none
  if offset = some 0 then plainShade colorName sTok lTok
  else
    let sign : Char := (offset.map (fun d => if 0 ≤ d then '+' else '-')).getD '-'
    let mag : List Char := (offset.map (fun d => natToDec d.natAbs)).getD (S "NaN")
    calcShade colorName sign mag sTok lTok

/-- The declarations generateHSLRanges emits for one color family. -/
structure FamilyOutput where
  name : List Char
  baseHueProp : List Char
  baseHueVal : List Char
  hslDecls : List (List Char × List Char)
  colorDecls : List (List Char × List Char)
deriving DecidableEq

/-- Per-family pass of generateHSLRanges: the base hue declaration, the
per-shade hsl array declarations and the final wrapping color
declarations, from the family's property/value members in insertion
order. -/
def processFamily (colorName : List Char) (entries : List (List Char × List Char)) :
    FamilyOutput :=
  let avg := familyHueAvg colorName (entries.map (fun e => e.2))
  { name := colorName
    baseHueProp := S "--dh-color-" ++ colorName ++ S "-hue"
    baseHueVal := ((avg.map intDec).getD (S "NaN")) ++ S "deg"
    hslDecls := entries.map
      (fun e => (e.1 ++ S "-hsl", shadeVal colorName avg (rgbToHsl (hexToRgb e.2))))
    colorDecls := entries.map
      (fun e => (e.1, S "hsl(var(" ++ e.1 ++ S "-hsl))")) }

/-- JavaScript object update: replace the value of an existing key in
place, or append the new key at the end. -/
def upsert (k : List Char) (v : List Char) :
    List (List Char × List Char) → List (List Char × List Char)
  | [] => [(k, v)]
  | (k', v') :: t => if k = k' then (k, v) :: t else (k', v') :: upsert k v t

/-- Add one property and its resolved value to its family group, creating
the group at the end on first sight, as the object writes of
generateHSLRanges do. -/
def addToGroups (key p v : List Char) :
    List (List Char × List (List Char × List Char)) →
    List (List Char × List (List Char × List Char))
  | [] => [(key, [(p, v)])]
  | (k, es) :: t => if k = key then (k, upsert p v es) :: t else (k, es) :: addToGroups key p v t

/-- The colorGroups accumulation of generateHSLRanges over the property
list, with env the computed value of each property. -/
def collectGroups (env : List Char → List Char) (names : List (List Char)) :
    List (List Char × List (List Char × List Char)) :=
  names.foldl
    (fun gs p =>
      match colorNameOfProp p with
      | none => gs
      | some key => addToGroups key p (env p) gs)
    []

/-- Model of generateHSLRanges from src/util.js: each family of the
grouped properties is processed independently into its emitted
declarations (the for-in loop touches only the entries of its own key, so
it is a map over the groups). -/
def generateHSLRanges (env : List Char → List Char) (names : List (List Char)) :
    List FamilyOutput :=
  (collectGroups env names).map (fun g => processFamily g.1 g.2)

/-- A loaded stylesheet: its href (none when absent) and its rules, each
rule being the list of declared property names as Object.values reads
them. -/
structure Sheet where
  href : Option (List Char)
  cssRules : List (List (List Char))
deriving DecidableEq

/-- The href suffix match of the stylesheet lookup loop. -/
def sheetMatches (path : List Char) (s : Sheet) : Bool :=
  match s.href with
  | none => false
  | some h => endsWithL h ('/' :: path)

/-- Model of getCssPropertyNames from src/util.js: the first stylesheet
whose href ends with a slash and the requested path supplies its first
rule's property names filtered to the custom-property marker; no match
throws the no-style-sheet error; a matching sheet without rules would make
JavaScript throw a TypeError reading the first rule. -/
def getCssPropertyNames (sheets : List Sheet) (cssPath : List Char) :
    Except (List Char) (List (List Char)) :=
  match sheets.find? (sheetMatches cssPath) with
  | none => Except.error (S "No style sheet found")
  | some s =>
    match s.cssRules.head? with
    | none => Except.error (S "TypeError")
    | some rule => Except.ok (rule.filter (fun p => p.take 2 = S "--"))

/-- A gray rgb input string with all three channels equal to v. -/
def grayRgb (v : ℕ) : List Char :=
  S "rgb(" ++ natToDec v ++ S " " ++ natToDec v ++ S " " ++ natToDec v ++ S ")"

/-- A hexadecimal digit character: the value n in lowercase or, for the
letter digits, optionally uppercase. -/
def mkHexChar (n : ℕ) (upper : Bool) : Char :=
  if n < 10 then Nat.digitChar n
  else if upper then Char.ofNat ('A'.toNat + (n - 10))
  else Char.ofNat ('a'.toNat + (n - 10))

/-- The hex to rgb to hex conversion chain of the C2 round-trip claim:
hexToRgb, then parseRgba, then rgbaToHex8 keeping the rgb portion of the
8 digit result. -/
def hexRoundTrip (l : List Char) : Option (List Char) :=
  (parseRgba (hexToRgb l)).map (fun x => (rgbaToHex8 x).take 7)

/-- Concrete environment used to instantiate universally quantified
theorems: resolved values of a small blue family authored directly in hsl
form (hexToRgb and rgbToHsl pass non-hex, non-rgb strings through). -/
def envW : List Char → List Char := fun p =>
  if p = S "--dh-color-blue-100" then S "hsl(200deg 50% 50%)"
  else if p = S "--dh-color-blue-200" then S "hsl(210deg 50% 50%)"
  else if p = S "--dh-color-grayx-100" then S "hsl(123deg 40% 50%)"
  else S "#aabbcc"

def namesW : List (List Char) :=
  [S "--dh-color-blue-100", S "--dh-color-blue-200", S "--dh-color-grayx-100"]

def entriesW : List (List Char × List Char) :=
  [(S "--dh-color-blue-100", S "hsl(200deg 50% 50%)"),
   (S "--dh-color-blue-200", S "hsl(210deg 50% 50%)")]

def entriesG : List (List Char × List Char) :=
  [(S "--dh-color-grayx-100", S "hsl(123deg 40% 50%)")]

/-- Concrete background environment resolving every variable reference to
one opaque rgb pixel value. -/
def bgEnvW : List Char → List Char := fun _ => S "rgb(170, 187, 204)"

/-! ## C5: determinism on the primary colors -/

/-- Claim C5: rgbToHsl maps rgb(255 0 0) to hsl(0deg 100% 50%),
rgb(0 255 0) to hsl(120deg 100% 50%) and rgb(0 0 255) to
hsl(240deg 100% 50%). -/
theorem c5_primary_colors :
    rgbToHsl (S "rgb(255 0 0)") = S "hsl(0deg 100% 50%)" ∧
    rgbToHsl (S "rgb(0 255 0)") = S "hsl(120deg 100% 50%)" ∧
    rgbToHsl (S "rgb(0 0 255)") = S "hsl(240deg 100% 50%)" := by
  refine ⟨?_, ?_, ?_⟩ <;> decide

/-! ## C1: gray inputs -/

/-- Counterexample to claim C1 as stated: at the gray input rgb(0 0 0) the
computed saturation is the JavaScript NaN (0 divided by 0), rendered NaN
percent, not 0 percent. -/
theorem c1_counterexample :
    rgbToHsl (grayRgb 0) = S "hsl(0deg NaN% 0%)" ∧
    ¬(rgbToHsl (grayRgb 0)).take 12 = S "hsl(0deg 0% " := by
  refine ⟨?_, ?_⟩ <;> decide

set_option maxRecDepth 40000 in
/-- Claim C1 as amended: every gray input rgb(v v v) with v between 0 and
255 yields hue 0; the saturation is 0 percent for v between 1 and 254,
while at the extremes v = 0 and v = 255 the saturation formula divides
zero by zero and renders NaN percent. -/
theorem c1_gray_invariance :
    ∀ v : ℕ, v < 256 →
      (rgbToHsl (grayRgb v)).take 9 = S "hsl(0deg " ∧
      (1 ≤ v → v ≤ 254 → (rgbToHsl (grayRgb v)).take 12 = S "hsl(0deg 0% ") ∧
      (v = 0 ∨ v = 255 → (rgbToHsl (grayRgb v)).take 14 = S "hsl(0deg NaN% ") := by
  decide

/-- Witness for C1 at the concrete gray input rgb(100 100 100). -/
theorem c1_witness :
    (rgbToHsl (grayRgb 100)).take 12 = S "hsl(0deg 0% " :=
  (c1_gray_invariance 100 (by decide)).2.1 (by decide) (by decide)

/-! ## C2: hex round-trip -/

-- ## helper lemmas for C2

set_option maxRecDepth 4000 in
theorem natToDec_spec :
    ∀ v : Fin 256, natToDec v.val ≠ [] ∧ (natToDec v.val).all Char.isDigit = true ∧
      decVal (natToDec v.val) = v.val := by decide

set_option maxRecDepth 4000 in
theorem hexVal_mkHexChar : ∀ n : Fin 16, ∀ u : Bool, hexVal? (mkHexChar n.val u) = some n.val := by
  decide

set_option maxRecDepth 4000 in
theorem padHex_ofNat :
    ∀ v : Fin 256, padStart2 (jsToHexStr (some (Frac.ofNat v.val))) =
      [mkHexChar (v.val / 16) false, mkHexChar (v.val % 16) false] := by decide

theorem isDigit_not_delim (c : Char) (h : c.isDigit = true) : isDelim c = false := by
  by_contra hd
  have hd' : isDelim c = true := by
    cases hv : isDelim c
    · exact absurd hv hd
    · rfl
  simp only [isDelim, Bool.or_eq_true, beq_iff_eq] at hd'
  rcases hd' with (h1 | h1) | h1 <;> subst h1 <;> simp at h

theorem takeWhile_all_digits (l : List Char) (h : l.all Char.isDigit = true) :
    l.takeWhile Char.isDigit = l := by
  rw [List.takeWhile_eq_self_iff]
  intro c hc
  exact List.all_eq_true.mp h c hc

theorem dropWhile_all_digits (l : List Char) (h : l.all Char.isDigit = true) :
    l.dropWhile Char.isDigit = [] := by
  rw [List.dropWhile_eq_nil_iff]
  intro c hc
  exact List.all_eq_true.mp h c hc

theorem jsNumber_digits (l : List Char) (hne : l ≠ []) (hd : l.all Char.isDigit = true) :
    jsNumber l = some (Frac.ofNat (decVal l)) := by
  rw [jsNumber]
  rw [takeWhile_all_digits l hd, dropWhile_all_digits l hd]
  simp [hne]

theorem splitRaw_append (xs u : List Char) (rest : List (List Char)) (l : List Char)
    (hxs : ∀ c ∈ xs, isDelim c = false) (hl : splitRaw l = u :: rest) :
    splitRaw (xs ++ l) = (xs ++ u) :: rest := by
  induction xs with
  | nil => simpa using hl
  | cons c t ih =>
    have hc : isDelim c = false := hxs c (by simp)
    have ht : ∀ d ∈ t, isDelim d = false := fun d hd => hxs d (by simp [hd])
    rw [List.cons_append, splitRaw, hc]
    simp only [Bool.false_eq_true, if_false]
    rw [ih ht]
    rfl

theorem splitRaw_space (l : List Char) : splitRaw (' ' :: l) = [] :: splitRaw l := by
  rw [splitRaw]
  simp [isDelim]

theorem splitRaw_rgbArgs (dr dg db : List Char)
    (hr : dr.all Char.isDigit = true) (hg : dg.all Char.isDigit = true)
    (hb : db.all Char.isDigit = true) :
    splitRaw (dr ++ ' ' :: (dg ++ ' ' :: db)) = [dr, dg, db] := by
  have hnd : ∀ (l : List Char), l.all Char.isDigit = true → ∀ c ∈ l, isDelim c = false :=
    fun l hl c hc => isDigit_not_delim c (List.all_eq_true.mp hl c hc)
  have h1 : splitRaw db = [db] := by
    have := splitRaw_append db [] [] [] (hnd db hb) rfl
    simpa using this
  have h2 : splitRaw (' ' :: db) = [] :: [db] := by rw [splitRaw_space, h1]
  have h3 : splitRaw (dg ++ ' ' :: db) = [dg, db] := by
    have := splitRaw_append dg [] [db] (' ' :: db) (hnd dg hg) h2
    simpa using this
  have h4 : splitRaw (' ' :: (dg ++ ' ' :: db)) = [] :: [dg, db] := by
    rw [splitRaw_space, h3]
  have := splitRaw_append dr [] [dg, db] (' ' :: (dg ++ ' ' :: db)) (hnd dr hr) h4
  simpa using this

theorem parseRgba_rgbTriple (dr dg db : List Char)
    (hrne : dr ≠ []) (hr : dr.all Char.isDigit = true)
    (hgne : dg ≠ []) (hg : dg.all Char.isDigit = true)
    (hbne : db ≠ []) (hb : db.all Char.isDigit = true) :
    parseRgba (S "rgb(" ++ dr ++ S " " ++ dg ++ S " " ++ db ++ S ")") =
      some ⟨some (Frac.ofNat (decVal dr)), some (Frac.ofNat (decVal dg)),
        some (Frac.ofNat (decVal db)), some 1⟩ := by
  obtain ⟨d, ds, rfl⟩ : ∃ d ds, dr = d :: ds := by
    cases dr with
    | nil => exact absurd rfl hrne
    | cons d ds => exact ⟨d, ds, rfl⟩
  have hX : S "rgb(" ++ (d :: ds) ++ S " " ++ dg ++ S " " ++ db ++ S ")" =
      'r' :: 'g' :: 'b' :: '(' :: d :: ((ds ++ ' ' :: (dg ++ ' ' :: db)) ++ [')']) := by
    simp [S]
  rw [hX, parseRgba]
  have hd : d.isDigit = true := by
    have := List.all_eq_true.mp hr d (by simp)
    simpa using this
  have hda : d ≠ 'a' := by
    intro h
    subst h
    simp at hd
  have hfive : ('r' :: 'g' :: 'b' :: '(' :: d ::
      ((ds ++ ' ' :: (dg ++ ' ' :: db)) ++ [')'])).take 5 ≠ S "rgba(" := by
    simp [S]
  have hfour : ('r' :: 'g' :: 'b' :: '(' :: d ::
      ((ds ++ ' ' :: (dg ++ ' ' :: db)) ++ [')'])).take 4 = S "rgb(" := by
    simp [S]
  have hshape : d :: (ds ++ ' ' :: (dg ++ ' ' :: (db ++ [')']))) =
      (d :: (ds ++ ' ' :: (dg ++ ' ' :: db))) ++ [')'] := by simp
  have hlast : (d :: (ds ++ ' ' :: (dg ++ ' ' :: (db ++ [')'])))).getLast? = some ')' := by
    rw [hshape, List.getLast?_concat]
  have hlen : 5 ≤ ('r' :: 'g' :: 'b' :: '(' :: d ::
      ((ds ++ ' ' :: (dg ++ ' ' :: db)) ++ [')'])).length := by
    simp
  simp only [hfive, false_and, if_false, hfour, hlast, hlen, and_true, true_and, if_true,
    and_self, ite_true, ite_false, eq_self_iff_true]
  have hlast2 : ('r' :: 'g' :: 'b' :: '(' :: d ::
      (ds ++ ' ' :: (dg ++ ' ' :: db) ++ [')'])).getLast? = some ')' := by
    have h : 'r' :: 'g' :: 'b' :: '(' :: d :: (ds ++ ' ' :: (dg ++ ' ' :: db) ++ [')']) =
        ('r' :: 'g' :: 'b' :: '(' :: d :: (ds ++ ' ' :: (dg ++ ' ' :: db))) ++ [')'] := by
      simp
    rw [h, List.getLast?_concat]
  rw [hlast2]
  simp only [if_true, ite_true, eq_self_iff_true, if_pos rfl]
  have hdrop : List.drop 4 ('r' :: 'g' :: 'b' :: '(' :: d ::
      (ds ++ ' ' :: (dg ++ ' ' :: db) ++ [')'])) = (d :: (ds ++ ' ' :: (dg ++ ' ' :: db))) ++ [')'] := by
    simp
  rw [hdrop, List.dropLast_concat]
  have hsplit : splitRaw (d :: (ds ++ ' ' :: (dg ++ ' ' :: db))) = [d :: ds, dg, db] := by
    have h := splitRaw_rgbArgs (d :: ds) dg db hr hg hb
    simpa using h
  rw [hsplit]
  have hfilter : List.filter (fun t => decide (t ≠ [])) [d :: ds, dg, db] = [d :: ds, dg, db] := by
    simp [hgne, hbne]
  rw [hfilter]
  simp only [List.length_cons, List.length_nil]
  rw [List.map_cons, List.map_cons, List.map_cons, List.map_nil]
  rw [jsNumber_digits (d :: ds) (by simp) hr, jsNumber_digits dg hgne hg,
    jsNumber_digits db hbne hb]
  simp

theorem jsParseIntHex_pair (c d : Char) (a b : ℕ)
    (hc : hexVal? c = some a) (hd : hexVal? d = some b) :
    jsParseIntHex [c, d] = some (16 * a + b) := by
  unfold jsParseIntHex
  rw [hexValList, hc, hexValList, hd, hexValList]
  simp

theorem hexToRgb_pairs (c1 c2 c3 c4 c5 c6 : Char) (a1 a2 a3 a4 a5 a6 : ℕ)
    (h1 : hexVal? c1 = some a1) (h2 : hexVal? c2 = some a2)
    (h3 : hexVal? c3 = some a3) (h4 : hexVal? c4 = some a4)
    (h5 : hexVal? c5 = some a5) (h6 : hexVal? c6 = some a6) :
    hexToRgb ('#' :: [c1, c2, c3, c4, c5, c6]) =
      S "rgb(" ++ natToDec (16 * a1 + a2) ++ S " " ++ natToDec (16 * a3 + a4) ++ S " " ++
        natToDec (16 * a5 + a6) ++ S ")" := by
  have hA : List.take 2 (List.drop 1 ['#', c1, c2, c3, c4, c5, c6]) = [c1, c2] := rfl
  have hB : List.take 2 (List.drop 3 ['#', c1, c2, c3, c4, c5, c6]) = [c3, c4] := rfl
  have hC : List.take 2 (List.drop 5 ['#', c1, c2, c3, c4, c5, c6]) = [c5, c6] := rfl
  rw [hexToRgb, if_neg (by simp)]
  rw [if_neg (show ¬(['#', c1, c2, c3, c4, c5, c6].length = 4) by simp)]
  simp only [hA, hB, hC]
  rw [jsParseIntHex_pair c1 c2 a1 a2 h1 h2, jsParseIntHex_pair c3 c4 a3 a4 h3 h4,
    jsParseIntHex_pair c5 c6 a5 a6 h5 h6]
  rfl

theorem rgbaToHex8_ofNat (r g b : ℕ) (hr : r < 256) (hg : g < 256) (hb : b < 256) :
    rgbaToHex8 ⟨some (Frac.ofNat r), some (Frac.ofNat g), some (Frac.ofNat b), some 1⟩ =
      '#' :: ([mkHexChar (r / 16) false, mkHexChar (r % 16) false] ++
        [mkHexChar (g / 16) false, mkHexChar (g % 16) false] ++
        [mkHexChar (b / 16) false, mkHexChar (b % 16) false] ++ ['f', 'f']) := by
  rw [rgbaToHex8]
  have ha : (some (1 : Frac)).map (fun q => Frac.ofInt (jsRound (q * 255))) =
      some (Frac.ofInt 255) := by decide
  simp only [ha]
  rw [padHex_ofNat ⟨r, hr⟩, padHex_ofNat ⟨g, hg⟩, padHex_ofNat ⟨b, hb⟩]
  have hff : padStart2 (jsToHexStr (some (Frac.ofInt 255))) = ['f', 'f'] := by decide
  rw [hff]

theorem c2_roundtrip_lowercase :
    ∀ n1 n2 n3 n4 n5 n6 : ℕ, ∀ u1 u2 u3 u4 u5 u6 : Bool,
      n1 < 16 → n2 < 16 → n3 < 16 → n4 < 16 → n5 < 16 → n6 < 16 →
      hexRoundTrip ('#' :: [mkHexChar n1 u1, mkHexChar n2 u2, mkHexChar n3 u3,
          mkHexChar n4 u4, mkHexChar n5 u5, mkHexChar n6 u6]) =
        some ('#' :: [mkHexChar n1 false, mkHexChar n2 false, mkHexChar n3 false,
          mkHexChar n4 false, mkHexChar n5 false, mkHexChar n6 false]) := by
  intro n1 n2 n3 n4 n5 n6 u1 u2 u3 u4 u5 u6 hn1 hn2 hn3 hn4 hn5 hn6
  rw [hexRoundTrip]
  rw [hexToRgb_pairs _ _ _ _ _ _ _ _ _ _ _ _
    (hexVal_mkHexChar ⟨n1, hn1⟩ u1) (hexVal_mkHexChar ⟨n2, hn2⟩ u2)
    (hexVal_mkHexChar ⟨n3, hn3⟩ u3) (hexVal_mkHexChar ⟨n4, hn4⟩ u4)
    (hexVal_mkHexChar ⟨n5, hn5⟩ u5) (hexVal_mkHexChar ⟨n6, hn6⟩ u6)]
  have hR : 16 * n1 + n2 < 256 := by omega
  have hG : 16 * n3 + n4 < 256 := by omega
  have hB : 16 * n5 + n6 < 256 := by omega
  rw [parseRgba_rgbTriple _ _ _
    (natToDec_spec ⟨16 * n1 + n2, hR⟩).1 (natToDec_spec ⟨16 * n1 + n2, hR⟩).2.1
    (natToDec_spec ⟨16 * n3 + n4, hG⟩).1 (natToDec_spec ⟨16 * n3 + n4, hG⟩).2.1
    (natToDec_spec ⟨16 * n5 + n6, hB⟩).1 (natToDec_spec ⟨16 * n5 + n6, hB⟩).2.1]
  rw [Option.map_some']
  rw [(natToDec_spec ⟨16 * n1 + n2, hR⟩).2.2, (natToDec_spec ⟨16 * n3 + n4, hG⟩).2.2,
    (natToDec_spec ⟨16 * n5 + n6, hB⟩).2.2]
  rw [rgbaToHex8_ofNat _ _ _ hR hG hB]
  have e1 : (16 * n1 + n2) / 16 = n1 := by omega
  have e2 : (16 * n1 + n2) % 16 = n2 := by omega
  have e3 : (16 * n3 + n4) / 16 = n3 := by omega
  have e4 : (16 * n3 + n4) % 16 = n4 := by omega
  have e5 : (16 * n5 + n6) / 16 = n5 := by omega
  have e6 : (16 * n5 + n6) % 16 = n6 := by omega
  rw [e1, e2, e3, e4, e5, e6]
  simp [List.take]


/-- Counterexample to claim C2 as stated: the valid 6 digit hex color
string with uppercase digits round-trips to its lowercase form, not to the
original string. -/
theorem c2_counterexample :
    hexRoundTrip (S "#AABBCC") = some (S "#aabbcc") ∧
    hexRoundTrip (S "#AABBCC") ≠ some (S "#AABBCC") := by
  refine ⟨?_, ?_⟩ <;> decide

/-- Witness for C2 at the concrete mixed-case input #AaBbCc. -/
theorem c2_witness :
    hexRoundTrip ('#' :: [mkHexChar 10 true, mkHexChar 10 false, mkHexChar 11 true,
        mkHexChar 11 false, mkHexChar 12 true, mkHexChar 12 false]) =
      some ('#' :: [mkHexChar 10 false, mkHexChar 10 false, mkHexChar 11 false,
        mkHexChar 11 false, mkHexChar 12 false, mkHexChar 12 false]) :=
  c2_roundtrip_lowercase 10 10 11 11 12 12 true false true false true false (by decide)
    (by decide) (by decide) (by decide) (by decide) (by decide)

/-! ## Suffix-test helper lemmas -/

theorem lastNumSuffix_digit_head (p : List Char) (w : List Char)
    (h : lastNumSuffix p = some w) : ∃ c t, p.reverse = c :: t ∧ c.isDigit = true := by
  rw [lastNumSuffix] at h
  cases hrev : p.reverse with
  | nil => rw [hrev] at h; simp [List.takeWhile] at h
  | cons c t =>
    rw [hrev] at h
    cases hd : c.isDigit with
    | false => rw [List.takeWhile_cons, hd] at h; simp at h
    | true => exact ⟨c, t, rfl, hd⟩

theorem endsWith_ne_of_digit_head (p suf : List Char) (c : Char) (t : List Char)
    (hrev : p.reverse = c :: t) (hd : c.isDigit = true) (c' : Char) (t' : List Char)
    (hsuf : suf.reverse = c' :: t') (hc' : c'.isDigit = false) :
    endsWithL p suf = false := by
  rw [endsWithL, hrev]
  have hlen : suf.length = t'.length + 1 := by
    have := congrArg List.length hsuf
    simpa using this
  rw [hlen, List.take_succ_cons]
  have hne : c ≠ c' := by
    intro he
    rw [he, hc'] at hd
    exact Bool.false_ne_true hd
  rw [hsuf]
  simp [hne]

theorem lastNumSuffix_not_hsl (p w : List Char) (h : lastNumSuffix p = some w) :
    endsWithL p (S "-hsl") = false := by
  obtain ⟨c, t, hrev, hd⟩ := lastNumSuffix_digit_head p w h
  exact endsWith_ne_of_digit_head p (S "-hsl") c t hrev hd 'l' ['s', 'h', '-'] rfl (by decide)

theorem lastNumSuffix_not_hue (p w : List Char) (h : lastNumSuffix p = some w) :
    endsWithL p (S "-hue") = false := by
  obtain ⟨c, t, hrev, hd⟩ := lastNumSuffix_digit_head p w h
  exact endsWith_ne_of_digit_head p (S "-hue") c t hrev hd 'e' ['u', 'h', '-'] rfl (by decide)

theorem endsWithHue_not_hsl (p : List Char) (h : endsWithL p (S "-hue") = true) :
    endsWithL p (S "-hsl") = false := by
  rw [endsWithL] at h ⊢
  have h' : p.reverse.take 4 = ['e', 'u', 'h', '-'] := by
    have := beq_iff_eq.mp h
    simpa using this
  have hlen : (S "-hsl").length = 4 := rfl
  rw [hlen, h']
  decide

/-! ## C10: the -hsl refinements of the swatch builder -/

/-- Claim C10: a property ending in -hsl is skipped entirely by the loop
body of buildSwatches: no swatch element is appended and the
previous-property reference is left unchanged; and a rendered property
(one ending neither in -hsl nor in -hue) gets exactly one swatch whose
background is the variable reference to the property name with any
trailing -hsl stripped, which for such a property is the name itself. -/
theorem c10_hsl_refinements :
    ∀ (env bgEnv : List Char → List Char) (prev : Option (List Char)) (i : ℕ)
      (p : List Char),
      (endsWithL p (S "-hsl") = true → emit env bgEnv prev i p = ([], prev)) ∧
      (endsWithL p (S "-hsl") = false → endsWithL p (S "-hue") = false →
        (emit env bgEnv prev i p).1.map Swatch.background =
          [some (S "var(" ++ p ++ S ")")]) := by
  intro env bgEnv prev i p
  constructor
  · intro h
    rw [emit, if_pos h]
  · intro h1 h2
    rw [emit, if_neg (by rw [h1]; exact Bool.false_ne_true),
      if_neg (by rw [h2]; exact Bool.false_ne_true)]
    rw [stripHslSuffix, if_neg (by rw [h1]; exact Bool.false_ne_true)]
    rfl

/-- Witness for C10: a concrete -hsl property is skipped and a concrete
plain property gets its own variable reference as background. -/
theorem c10_witness :
    emit envW bgEnvW (some (S "--dh-color-blue-100")) 1 (S "--dh-color-blue-100-hsl") =
      ([], some (S "--dh-color-blue-100")) ∧
    (emit envW bgEnvW none 0 (S "--dh-color-blue-100")).1.map Swatch.background =
      [some (S "var(" ++ S "--dh-color-blue-100" ++ S ")")] :=
  ⟨(c10_hsl_refinements envW bgEnvW (some (S "--dh-color-blue-100")) 1
      (S "--dh-color-blue-100-hsl")).1 (by decide),
   (c10_hsl_refinements envW bgEnvW none 0 (S "--dh-color-blue-100")).2 (by decide)
      (by decide)⟩

/-! ## C4: the shade-weight threshold -/

/-- Claim C4: for a property name with a parsable trailing numeric shade
suffix, a weight of 700 or more selects the light gray-75 foreground and a
weight below 700 the dark gray-800 foreground, both in the refined
buildSwatches of src/util.js and in the earlier loop of src/iframe.js. -/
theorem c4_shade_threshold :
    ∀ (env bgEnv : List Char → List Char) (prev : Option (List Char)) (i : ℕ)
      (p w : List Char), lastNumSuffix p = some w →
      ((700 ≤ decVal w →
          (emit env bgEnv prev i p).1.map Swatch.textColor = [some gray75v] ∧
          fgLegacy p = gray75v) ∧
       (decVal w < 700 →
          (emit env bgEnv prev i p).1.map Swatch.textColor = [some gray800v] ∧
          fgLegacy p = gray800v)) := by
  intro env bgEnv prev i p w hw
  have h1 := lastNumSuffix_not_hsl p w hw
  have h2 := lastNumSuffix_not_hue p w hw
  rw [emit, if_neg (by rw [h1]; exact Bool.false_ne_true),
    if_neg (by rw [h2]; exact Bool.false_ne_true)]
  rw [fgLegacy, hw]
  constructor
  · intro hge
    have hnlt : ¬(decVal w < 700) := by omega
    constructor
    · simp [hnlt]
    · simp [hge]
  · intro hlt
    have hnge : ¬(700 ≤ decVal w) := by omega
    constructor
    · simp [hlt]
    · simp [hnge]

/-- Witness for C4 at the shade weights 700 and 100. -/
theorem c4_witness :
    (emit envW bgEnvW none 0 (S "--dh-color-blue-700")).1.map Swatch.textColor =
      [some gray75v] ∧
    (emit envW bgEnvW none 1 (S "--dh-color-blue-100")).1.map Swatch.textColor =
      [some gray800v] :=
  ⟨((c4_shade_threshold envW bgEnvW none 0 (S "--dh-color-blue-700") (S "700")
      (by decide)).1 (by decide)).1,
   ((c4_shade_threshold envW bgEnvW none 1 (S "--dh-color-blue-100") (S "100")
      (by decide)).2 (by decide)).1⟩

/-! ## C8: hue-definition properties -/

/-- Counterexample to claim C8 as stated: for a -hue property the builder
does append a swatch element (with its label), so swatch output is
produced; only the coloring is skipped. -/
theorem c8_counterexample :
    (buildSwatches envW bgEnvW [] [S "--dh-color-blue-hue"]).length = 1 ∧
    buildSwatches envW bgEnvW [] [S "--dh-color-blue-hue"] ≠ [] := by
  refine ⟨?_, ?_⟩ <;> decide

/-- Claim C8 as amended: a property ending in -hue is not rendered as a
colored swatch: its emitted element carries no background, no foreground
color and no tooltip, and the property still becomes the previous-property
spacing anchor; a labeled swatch element is nonetheless emitted. -/
theorem c8_hue_anchor :
    ∀ (env bgEnv : List Char → List Char) (prev : Option (List Char)) (i : ℕ)
      (p : List Char), endsWithL p (S "-hue") = true →
      (emit env bgEnv prev i p).1.map Swatch.background = [none] ∧
      (emit env bgEnv prev i p).1.map Swatch.textColor = [none] ∧
      (emit env bgEnv prev i p).1.map Swatch.title = [none] ∧
      (emit env bgEnv prev i p).2 = some p := by
  intro env bgEnv prev i p h
  have h1 := endsWithHue_not_hsl p h
  rw [emit, if_neg (by rw [h1]; exact Bool.false_ne_true), if_pos h]
  exact ⟨rfl, rfl, rfl, rfl⟩

/-- Witness for C8 at a concrete hue property. -/
theorem c8_witness :
    (emit envW bgEnvW none 0 (S "--dh-color-blue-hue")).1.map Swatch.background = [none] ∧
    (emit envW bgEnvW none 0 (S "--dh-color-blue-hue")).1.map Swatch.textColor = [none] ∧
    (emit envW bgEnvW none 0 (S "--dh-color-blue-hue")).1.map Swatch.title = [none] ∧
    (emit envW bgEnvW none 0 (S "--dh-color-blue-hue")).2 = some (S "--dh-color-blue-hue") :=
  c8_hue_anchor envW bgEnvW none 0 (S "--dh-color-blue-hue") (by decide)

/-! ## C9: no hidden mutable state -/

theorem foldl_emit_container (env bgEnv : List Char → List Char) :
    ∀ (l : List (ℕ × List Char)) (c : List Swatch) (prev : Option (List Char)),
      (l.foldl
        (fun st ip =>
          ((st.1 ++ (emit env bgEnv st.2 ip.1 ip.2).1, (emit env bgEnv st.2 ip.1 ip.2).2) :
            List Swatch × Option (List Char)))
        (c, prev)).1 =
      c ++ (l.foldl
        (fun st ip =>
          ((st.1 ++ (emit env bgEnv st.2 ip.1 ip.2).1, (emit env bgEnv st.2 ip.1 ip.2).2) :
            List Swatch × Option (List Char)))
        ([], prev)).1 := by
  intro l
  induction l with
  | nil => intro c prev; simp
  | cons a t ih =>
    intro c prev
    rw [List.foldl_cons, List.foldl_cons]
    rw [ih (c ++ (emit env bgEnv prev a.1 a.2).1) (emit env bgEnv prev a.1 a.2).2,
      ih ([] ++ (emit env bgEnv prev a.1 a.2).1) (emit env bgEnv prev a.1 a.2).2]
    simp [List.append_assoc]

/-- Claim C9: buildSwatches is a pure function of the environment and the
property list; the swatches it appends do not depend on the container's
prior contents, so a second run over the same resolved mapping appends
exactly the same labels and styling as the first (no hidden mutable
state). -/
theorem c9_no_hidden_state :
    ∀ (env bgEnv : List Char → List Char) (container : List Swatch)
      (names : List (List Char)),
      buildSwatches env bgEnv container names =
        container ++ buildSwatches env bgEnv [] names := by
  intro env bgEnv container names
  rw [buildSwatches, buildSwatches]
  exact foldl_emit_container env bgEnv names.enum container none

/-! ## C7: stylesheet lookup -/

/-- Claim C7: when no loaded stylesheet href suffix-matches the requested
path the extraction fails with the no-style-sheet error; when a matching
stylesheet exists, the first match supplies its first rule's property
names (filtered to the custom-property marker) and no error is raised. -/
theorem c7_stylesheet_lookup :
    ∀ (sheets : List Sheet) (path : List Char),
      ((∀ s ∈ sheets, sheetMatches path s = false) →
        getCssPropertyNames sheets path = Except.error (S "No style sheet found")) ∧
      (∀ (pre : List Sheet) (s : Sheet) (post : List Sheet) (rule : List (List Char))
          (rules : List (List (List Char))),
        sheets = pre ++ s :: post →
        (∀ t ∈ pre, sheetMatches path t = false) →
        sheetMatches path s = true →
        s.cssRules = rule :: rules →
        getCssPropertyNames sheets path =
          Except.ok (rule.filter (fun q => q.take 2 = S "--")) ∧
        ∀ err, getCssPropertyNames sheets path ≠ Except.error err) := by
  intro sheets path
  constructor
  · intro h
    rw [getCssPropertyNames]
    rw [List.find?_eq_none.mpr (fun s hs => by rw [h s hs]; exact Bool.false_ne_true)]
  · intro pre s post rule rules hsheets hpre hs hrules
    have hfind : sheets.find? (sheetMatches path) = some s := by
      subst hsheets
      induction pre with
      | nil => simp only [List.nil_append]; rw [List.find?_cons_of_pos _ hs]
      | cons a t ih =>
        have ha : sheetMatches path a = false := hpre a (by simp)
        rw [List.cons_append, List.find?_cons_of_neg _ (by rw [ha]; exact Bool.false_ne_true)]
        exact ih (fun u hu => hpre u (by simp [hu]))
    rw [getCssPropertyNames, hfind]
    simp [hrules]

/-- A concrete loaded stylesheet used to instantiate C7. -/
def sheetW : Sheet :=
  ⟨some (S "http://localhost/themes/hex.css"), [[S "--dh-color-red-500", S "color"]]⟩

/-- Witness for C7: the matching path succeeds with the filtered first
rule, a non-matching path raises the no-style-sheet error. -/
theorem c7_witness :
    getCssPropertyNames [sheetW] (S "themes/hex.css") =
      Except.ok ([S "--dh-color-red-500", S "color"].filter (fun q => q.take 2 = S "--")) ∧
    getCssPropertyNames [sheetW] (S "other.css") = Except.error (S "No style sheet found") :=
  ⟨((c7_stylesheet_lookup [sheetW] (S "themes/hex.css")).2 [] sheetW []
      [S "--dh-color-red-500", S "color"] [] rfl (by simp) (by decide) rfl).1,
   (c7_stylesheet_lookup [sheetW] (S "other.css")).1 (by decide)⟩

/-! ## C3 and C6: the HSL range generator -/

theorem Frac.ofNat_add (a x : ℕ) : Frac.ofNat a + Frac.ofNat x = Frac.ofNat (a + x) := by
  show Frac.mk ((a : ℤ) * 1 + (x : ℤ) * 1) (1 * 1) = Frac.mk ((a + x : ℕ) : ℤ) 1
  rw [Frac.mk.injEq]
  constructor
  · push_cast
    ring
  · decide

theorem jsSumHues_map_some (hues : List ℕ) :
    jsSumHues (hues.map some) = some (Frac.ofNat hues.sum) := by
  rw [jsSumHues]
  suffices h : ∀ (hs : List ℕ) (a : ℕ),
      (hs.map some).foldl
        (fun acc h =>
          match acc, h with
          | some a, some x => some (a + Frac.ofNat x)
          | _, _ => none)
        (some (Frac.ofNat a)) = some (Frac.ofNat (a + hs.sum)) by
    have := h hues 0
    simpa using this
  intro hs
  induction hs with
  | nil => intro a; simp
  | cons x t ih =>
    intro a
    simp only [List.map_cons, List.foldl_cons]
    rw [Frac.ofNat_add, ih (a + x)]
    congr 1
    rw [List.sum_cons]
    congr 1
    omega

theorem shadeVal_of_extract (colorName : List Char) (A : ℤ) (hsl : List Char)
    (h : ℕ) (sTok lTok : List Char) (hex : extractHsl hsl = some (h, sTok, lTok))
    (hgray : colorName ≠ grayxL) :
    shadeVal colorName (some A) hsl =
      (if (h : ℤ) = A then plainShade colorName sTok lTok
       else calcShade colorName (if 0 ≤ (h : ℤ) - A then '+' else '-')
         (natToDec ((h : ℤ) - A).natAbs) sTok lTok) := by
  simp only [shadeVal, hex, Option.map_some', Option.getD_some, if_neg hgray]
  by_cases hz : (h : ℤ) = A
  · have h0 : (h : ℤ) - A = 0 := by omega
    rw [if_pos (show some ((h : ℤ) - A) = some (0 : ℤ) from by rw [h0]), if_pos hz]
  · have hne : ¬(some ((h : ℤ) - A) = some (0 : ℤ)) := by
      intro hcon
      injection hcon with hh
      omega
    rw [if_neg hne, if_neg hz]

theorem shadeVal_grayx (avg : Option ℤ) (hsl : List Char) :
    shadeVal grayxL avg hsl = plainShade grayxL
      (((extractHsl hsl).map (fun x => x.2.1)).getD (S "undefined"))
      (((extractHsl hsl).map (fun x => x.2.2)).getD (S "undefined")) := rfl

theorem processFamily_hslDecl (colorName : List Char)
    (entries : List (List Char × List Char)) (i : ℕ) (pname pval : List Char)
    (hi : entries[i]? = some (pname, pval)) :
    (processFamily colorName entries).hslDecls[i]? =
      some (pname ++ S "-hsl",
        shadeVal colorName (familyHueAvg colorName (entries.map (fun e => e.2)))
          (rgbToHsl (hexToRgb pval))) := by
  rw [processFamily]
  simp only [List.getElem?_map, hi, Option.map_some']

/-- Claim C3: in a non-gray family of the generator, a shade whose hue
exceeds the emitted family average by d > 0 degrees gets the calc value
with a plus d delta, one below it by d > 0 degrees the minus d delta, and
a shade matching the average exactly gets the offset-free value carrying
only the shared hue variable with its own saturation and lightness. -/
theorem c3_offset_encoding :
    ∀ (env : List Char → List Char) (names : List (List Char)) (colorName : List Char)
      (entries : List (List Char × List Char)),
      (colorName, entries) ∈ collectGroups env names →
      colorName ≠ grayxL →
      ∀ (i : ℕ) (pname pval : List Char) (h : ℕ) (sTok lTok : List Char) (A : ℤ),
        entries[i]? = some (pname, pval) →
        extractHsl (rgbToHsl (hexToRgb pval)) = some (h, sTok, lTok) →
        familyHueAvg colorName (entries.map (fun e => e.2)) = some A →
        ((∀ d : ℕ, 0 < d → (h : ℤ) = A + d →
            (processFamily colorName entries).hslDecls[i]? =
              some (pname ++ S "-hsl", calcShade colorName '+' (natToDec d) sTok lTok)) ∧
         (∀ d : ℕ, 0 < d → (h : ℤ) = A - d →
            (processFamily colorName entries).hslDecls[i]? =
              some (pname ++ S "-hsl", calcShade colorName '-' (natToDec d) sTok lTok)) ∧
         ((h : ℤ) = A →
            (processFamily colorName entries).hslDecls[i]? =
              some (pname ++ S "-hsl", plainShade colorName sTok lTok))) := by
  intro env names colorName entries hmem hgray i pname pval h sTok lTok A hi hex hA
  have hdecl := processFamily_hslDecl colorName entries i pname pval hi
  rw [hA] at hdecl
  rw [shadeVal_of_extract colorName A _ h sTok lTok hex hgray] at hdecl
  refine ⟨?_, ?_, ?_⟩
  · intro d hd hplus
    rw [hdecl, if_neg (by omega)]
    have hsub : (h : ℤ) - A = (d : ℤ) := by omega
    rw [hsub, if_pos (by omega)]
    have habs : ((d : ℤ)).natAbs = d := Int.natAbs_ofNat d
    rw [habs]
  · intro d hd hminus
    rw [hdecl, if_neg (by omega)]
    have hsub : (h : ℤ) - A = -(d : ℤ) := by omega
    rw [hsub, if_neg (by omega)]
    have habs : (-(d : ℤ)).natAbs = d := by simp
    rw [habs]
  · intro heq
    rw [hdecl, if_pos heq]

/-- Witness for C3: in the concrete blue family the shade with hue 210
against the average 205 is emitted with a plus 5 degree delta. -/
theorem c3_witness :
    (processFamily (S "blue") entriesW).hslDecls[1]? =
      some (S "--dh-color-blue-200" ++ S "-hsl",
        calcShade (S "blue") '+' (natToDec 5) (S "50") (S "50")) :=
  (c3_offset_encoding envW namesW (S "blue") entriesW (by decide) (by decide) 1
    (S "--dh-color-blue-200") (S "hsl(210deg 50% 50%)") 210 (S "50") (S "50") 205
    (by decide) (by decide) (by decide)).1 5 (by decide) (by decide)

/-- Claim C6: the emitted hue baseline of the grayx family is pinned to
exactly 0deg and all its per-shade offsets are zero (every shade gets the
offset-free value); every other family's baseline is the mean of its
member hues rounded to the nearest integer degree. -/
theorem c6_baseline :
    (∀ (env : List Char → List Char) (names : List (List Char))
        (entries : List (List Char × List Char)),
      (grayxL, entries) ∈ collectGroups env names →
      (processFamily grayxL entries).baseHueVal = S "0deg" ∧
      ∀ (i : ℕ) (pname pval : List Char), entries[i]? = some (pname, pval) →
        (processFamily grayxL entries).hslDecls[i]? =
          some (pname ++ S "-hsl", plainShade grayxL (satStrOf pval) (lightStrOf pval))) ∧
    (∀ (env : List Char → List Char) (names : List (List Char)) (colorName : List Char)
        (entries : List (List Char × List Char)) (hues : List ℕ),
      (colorName, entries) ∈ collectGroups env names →
      colorName ≠ grayxL →
      entries ≠ [] →
      entries.map (fun e => hueOfValue e.2) = hues.map some →
      (processFamily colorName entries).baseHueVal =
        intDec (jsRound (Frac.ofNat hues.sum / Frac.ofNat entries.length)) ++ S "deg") := by
  constructor
  · intro env names entries hmem
    constructor
    · rw [processFamily, familyHueAvg, if_pos rfl]
      rfl
    · intro i pname pval hi
      have hdecl := processFamily_hslDecl grayxL entries i pname pval hi
      rw [hdecl, shadeVal_grayx]
      rfl
  · intro env names colorName entries hues hmem hgray hne hmap
    have hlen0 : ¬(entries.length = 0) := by
      intro hc
      exact hne (List.length_eq_zero.mp hc)
    have hAvg : familyHueAvg colorName (entries.map (fun e => e.2)) =
        some (jsRound (Frac.ofNat hues.sum / Frac.ofNat entries.length)) := by
      rw [familyHueAvg, if_neg hgray, List.map_map]
      rw [show (hueOfValue ∘ fun (e : List Char × List Char) => e.2) =
        (fun e => hueOfValue e.2) from rfl]
      rw [hmap, jsSumHues_map_some, List.length_map]
      rw [if_neg hlen0, Option.map_some']
    rw [processFamily, hAvg]
    rfl

/-- Witness for C6: the concrete grayx family is pinned to 0deg with an
offset-free shade, and the concrete blue family with hues 200 and 210 gets
the rounded mean baseline. -/
theorem c6_witness :
    (processFamily grayxL entriesG).baseHueVal = S "0deg" ∧
    (processFamily grayxL entriesG).hslDecls[0]? =
      some (S "--dh-color-grayx-100" ++ S "-hsl",
        plainShade grayxL (satStrOf (S "hsl(123deg 40% 50%)"))
          (lightStrOf (S "hsl(123deg 40% 50%)"))) ∧
    (processFamily (S "blue") entriesW).baseHueVal =
      intDec (jsRound (Frac.ofNat ([200, 210] : List ℕ).sum /
        Frac.ofNat entriesW.length)) ++ S "deg" :=
  ⟨(c6_baseline.1 envW namesW entriesG (by decide)).1,
   (c6_baseline.1 envW namesW entriesG (by decide)).2 0 (S "--dh-color-grayx-100")
     (S "hsl(123deg 40% 50%)") (by decide),
   c6_baseline.2 envW namesW (S "blue") entriesW [200, 210] (by decide) (by decide)
     (by decide) (by decide)⟩

end ThemingSpike
